import Mathlib

/-!
Verification of the GdbServer interface (src/src/GdbServer.h) of the rr
record/replay debugger bridge.

The header declares the data members of the server and gives a few inline
bodies (the two constructors, `interrupt_replay_to_target`,
`current_session`).  Those are embedded directly from the source.  The
out-of-line member functions (`at_target`, `try_lazy_reverse_singlesteps`,
`divert`, `diverter_process_debugger_requests`, `get_checkpoint`,
`delete_checkpoint`, the attach logic) have no body in the header; their
behaviour is modelled from the specification, as marked on each definition.

Machine integers: pids, event counters, uids and register values are
embedded as `Nat`; the checkpoint ids (C++ `int`) as `Int`.  None of the
claims depend on overflow behaviour.
-/

/-- A debuggee register/memory snapshot: the "cached architectural state"
carried by a timeline mark, and the mutable state of a session. -/
structure MachineState where
  regs : List Nat
  mem : List Nat
  event : Nat
deriving DecidableEq, Repr

/-- An execution-engine session handle (ReplaySession / live Session),
abstracted to an identifier as the header treats it opaquely. -/
structure Session where
  sid : Nat
deriving DecidableEq, Repr

/-- Embeds `GdbServer::Target` (GdbServer.h lines 19-27): pid 0 means
"just debug the first process"; `event` is the minimum trace time. -/
structure Target where
  pid : Nat
  require_exec : Bool
  event : Nat
deriving DecidableEq, Repr

/-- The `Target()` default constructor: pid 0, no exec requirement, event 0. -/
def Target.mkDefault : Target :=
  { pid := 0, require_exec := false, event := 0 }

/-- Embeds `GdbServer::ConnectionFlags` (GdbServer.h lines 29-39).
`debugger_params_write_pipe` is a `ScopedFd*`; `none` embeds `nullptr`. -/
structure ConnectionFlags where
  dbg_port : Int
  debugger_params_write_pipe : Option Nat
deriving DecidableEq, Repr

/-- The `ConnectionFlags()` default constructor (GdbServer.h line 38):
`dbg_port(-1), debugger_params_write_pipe(nullptr)`. -/
def ConnectionFlags.mkDefault : ConnectionFlags :=
  { dbg_port := -1, debugger_params_write_pipe := none }

/-- Embeds `GdbServer::Checkpoint` (GdbServer.h lines 207-213): a pinned
timeline mark plus the last-continued thread id.  A `ReplayTimeline::Mark`
may be null (its default state); `mark = none` embeds the null mark. -/
structure Checkpoint where
  mark : Option Nat
  last_continue_tuid : Nat
deriving DecidableEq, Repr

/-- The `Checkpoint()` defaulted constructor: null mark, zero tuid. -/
def Checkpoint.mkDefault : Checkpoint :=
  { mark := none, last_continue_tuid := 0 }

/-- Modelled from the spec: the `ReplayTimeline` member is opaque in the
header (ReplayTimeline.h is not part of the sources).  The spec describes it
as the engine replaying the recorded execution; the server only asks it
`is_running()` and `current_session()`, so it is embedded as an optional
current session: a default-constructed timeline has no session and is not
running, a timeline built from a replay session is running. -/
structure ReplayTimeline where
  session : Option Session
deriving DecidableEq, Repr

/-- `ReplayTimeline::is_running()`: whether the timeline has a current
replay session (modelled from the spec, see `ReplayTimeline`). -/
def ReplayTimeline.is_running (tl : ReplayTimeline) : Bool :=
  tl.session.isSome

/-- Embeds the C++ declaration form of the interrupt flag: the header may
declare it `volatile bool` or `std::atomic<bool>` with relaxed accesses. -/
inductive FlagDeclKind where
  | volatileBool : FlagDeclKind
  | atomicBoolRelaxed : FlagDeclKind
deriving DecidableEq, Repr

/-- GdbServer.h line 202 declares `volatile bool stop_replaying_to_target;`. -/
def stop_replaying_to_target_decl : FlagDeclKind :=
  FlagDeclKind.volatileBool

/-- Embeds the data members of `class GdbServer` (GdbServer.h lines
189-219).  `dbg` is a `unique_ptr<GdbConnection>`, abstracted to an
optional connection id; `emergency_debug_session` is a `Session*`. -/
structure GdbServer where
  target : Target
  dbg : Option Nat
  debuggee_tguid : Nat
  last_continue_tuid : Nat
  last_query_tuid : Nat
  stop_replaying_to_target : Bool
  timeline : ReplayTimeline
  emergency_debug_session : Option Session
  debugger_restart_checkpoint : Checkpoint
  checkpoints : List (Int × Checkpoint)
deriving DecidableEq, Repr

/-- Embeds the public constructor (GdbServer.h lines 44-49): stores the
target, clears the interrupt flag, builds the timeline from the replay
session, leaves the emergency session null; the remaining members are
default-constructed (null `dbg`, zero uids, default restart checkpoint,
empty checkpoint map). -/
def GdbServer.ofReplaySession (session : Session) (target : Target) : GdbServer :=
  { target := target
    dbg := none
    debuggee_tguid := 0
    last_continue_tuid := 0
    last_query_tuid := 0
    stop_replaying_to_target := false
    timeline := { session := some session }
    emergency_debug_session := none
    debugger_restart_checkpoint := Checkpoint.mkDefault
    checkpoints := [] }

/-- A task handle as the emergency constructor uses it: its task-group id
(`t->task_group()->tguid()`), its own uid (`t->tuid()`), and its live
session (`t->session()`).  (Named `DebuggeeTask` because `Task` is taken
by the Lean core library.) -/
structure DebuggeeTask where
  tguid : Nat
  tuid : Nat
  session : Session
deriving DecidableEq, Repr

/-- Embeds the private emergency-debug constructor (GdbServer.h lines
93-99): takes ownership of the connection, records the task-group id and
both thread defaults from `t`, clears the interrupt flag, and points
`emergency_debug_session` at `t`'s session; all other members are
default-constructed (default target, default timeline, default restart
checkpoint, empty checkpoint map). -/
def GdbServer.ofEmergencyTask (dbg : Nat) (t : DebuggeeTask) : GdbServer :=
  { target := Target.mkDefault
    dbg := some dbg
    debuggee_tguid := t.tguid
    last_continue_tuid := t.tuid
    last_query_tuid := t.tuid
    stop_replaying_to_target := false
    timeline := { session := none }
    emergency_debug_session := some t.session
    debugger_restart_checkpoint := Checkpoint.mkDefault
    checkpoints := [] }

/-- Embeds `GdbServer::current_session` (GdbServer.h lines 101-104):
`timeline.is_running() ? timeline.current_session() : *emergency_debug_session`. -/
def GdbServer.current_session (s : GdbServer) : Option Session :=
  if s.timeline.is_running then s.timeline.session else s.emergency_debug_session

/-- Embeds `GdbServer::interrupt_replay_to_target` (GdbServer.h line 83):
`{ stop_replaying_to_target = true; }`. -/
def GdbServer.interrupt_replay_to_target (s : GdbServer) : GdbServer :=
  { s with stop_replaying_to_target := true }

/-- Modelled from the spec: the timeline position observed during the
replay-to-target phase — the current trace event count, the pid of the
current process, and the set of pids that have exec'd at least once.
(`GdbServer::at_target` has no body in the header.) -/
structure TimelinePos where
  event : Nat
  current_pid : Nat
  execd : List Nat
deriving DecidableEq, Repr

/-- Modelled from the spec: `GdbServer::at_target` — the Target predicate
holds when the process matches (`pid` 0 matches any process), the process
has exec'd when `require_exec` demands it, and the current event count has
reached `event`. -/
def at_target (t : Target) (p : TimelinePos) : Bool :=
  (t.pid == 0 || p.current_pid == t.pid) &&
    (!t.require_exec || p.execd.contains t.pid) &&
    decide (t.event ≤ p.event)

/-- Modelled from the spec: the REPLAY_TO_TARGET phase of `serve_replay` —
advance the timeline one step at a time, checking at each step boundary
whether the interrupt flag has been raised or the target predicate holds,
and stopping there if so.  `stepFn` is the engine's forward step, `fuel`
bounds the walk (end of trace). -/
def replay_to_target_loop (stepFn : TimelinePos → TimelinePos) (tgt : Target)
    (stopFlag : Bool) : Nat → TimelinePos → TimelinePos
  | 0, pos => pos
  | fuel + 1, pos =>
    if stopFlag || at_target tgt pos then pos
    else replay_to_target_loop stepFn tgt stopFlag fuel (stepFn pos)

/-- Modelled from the spec: `GdbServer::get_checkpoint` — "Return the
checkpoint stored as `checkpoint_id` or nullptr if there isn't one."  The
`std::map<int, Checkpoint>` member is embedded as an association list with
distinct keys; `none` embeds the nullptr result. -/
def get_checkpoint (cps : List (Int × Checkpoint)) (id : Int) : Option Checkpoint :=
  (cps.find? (fun e => decide (e.1 = id))).map (fun e => e.2)

/-- Modelled from the spec: `GdbServer::delete_checkpoint` — "Delete the
checkpoint stored as `checkpoint_id` if it exists, or do nothing if it
doesn't exist" (`std::map::erase` by key). -/
def delete_checkpoint (cps : List (Int × Checkpoint)) (id : Int) :
    List (Int × Checkpoint) :=
  cps.filter (fun e => decide (e.1 ≠ id))

/-- Modelled from the spec: checkpoint creation — store
`{mark, last_continue_tuid}` under the id, replacing any previous entry
with that id (`std::map` assignment). -/
def set_checkpoint (cps : List (Int × Checkpoint)) (id : Int) (c : Checkpoint) :
    List (Int × Checkpoint) :=
  (id, c) :: delete_checkpoint cps id

/-- Modelled from the spec: the checkpoint-related transitions of the
server — `attach` is the first successful attach (snapshotting the current
position as the restart anchor, set only if not already set), and the
client's checkpoint create/delete commands act on the id-keyed store. -/
inductive ServerOp where
  | attach (c : Checkpoint)
  | create (id : Int) (c : Checkpoint)
  | remove (id : Int)
deriving DecidableEq, Repr

/-- Modelled from the spec: apply one checkpoint-related transition to the
server state.  `attach` assigns `debugger_restart_checkpoint` only when its
mark is still null (first attach); `create` and `remove` touch only the
id-keyed `checkpoints` map. -/
def GdbServer.applyOp (s : GdbServer) : ServerOp → GdbServer
  | ServerOp.attach c =>
    if s.debugger_restart_checkpoint.mark = none
    then { s with debugger_restart_checkpoint := c }
    else s
  | ServerOp.create id c => { s with checkpoints := set_checkpoint s.checkpoints id c }
  | ServerOp.remove id => { s with checkpoints := delete_checkpoint s.checkpoints id }

/-- A sequence of checkpoint-related transitions, applied in order. -/
def GdbServer.applyOps (s : GdbServer) (ops : List ServerOp) : GdbServer :=
  ops.foldl GdbServer.applyOp s

/-- Modelled from the spec: the debugger requests serviced inside a
diversion — register/memory reads and writes, the magic commands that
adjust the diversion nesting refcount, and the resume-type request that
ends the diversion and is handed back to the main debug loop. -/
inductive DivRequest where
  | write_mem (addr v : Nat)
  | write_reg (i v : Nat)
  | read_mem (addr : Nat)
  | read_reg (i : Nat)
  | diversion_inc
  | diversion_dec
  | resume
deriving DecidableEq, Repr

/-- A reply sent back to the debugger for one diversion request. -/
inductive DivReply where
  | ok
  | mem_value (v : Nat)
  | reg_value (v : Nat)
deriving DecidableEq, Repr

/-- Modelled from the spec: dispatching one non-resume request against a
session's machine state (`dispatch_debugger_request` restricted to the
request kinds a diversion services): writes mutate the session, reads
report from it. -/
def dispatch_rw_request (m : MachineState) : DivRequest → MachineState × DivReply
  | DivRequest.write_mem a v => ({ m with mem := m.mem.set a v }, DivReply.ok)
  | DivRequest.write_reg i v => ({ m with regs := m.regs.set i v }, DivReply.ok)
  | DivRequest.read_mem a => (m, DivReply.mem_value (m.mem.getD a 0))
  | DivRequest.read_reg i => (m, DivReply.reg_value (m.regs.getD i 0))
  | _ => (m, DivReply.ok)

/-- The state threaded through the diversion controller: the replay
session used as the template, the forked diversion session, and the
nesting refcount. -/
structure DiversionCtx where
  replay : MachineState
  diversion_session : MachineState
  diversion_refcount : Nat
deriving DecidableEq, Repr

/-- Modelled from the spec: `diverter_process_debugger_requests` — service
requests against the diversion session until a resume-type request arrives
(returned unhandled, with the rest of the stream) or the nesting refcount
returns to zero; magic nesting requests adjust the refcount in place.
Returns the final controller state, the replies produced, and the
unconsumed request stream. -/
def diverter_process_debugger_requests :
    DiversionCtx → List DivRequest → DiversionCtx × List DivReply × List DivRequest
  | ctx, [] => (ctx, [], [])
  | ctx, r :: rest =>
    match r with
    | DivRequest.resume => (ctx, [], r :: rest)
    | DivRequest.diversion_inc =>
      diverter_process_debugger_requests
        { ctx with diversion_refcount := ctx.diversion_refcount + 1 } rest
    | DivRequest.diversion_dec =>
      if ctx.diversion_refcount ≤ 1 then ({ ctx with diversion_refcount := 0 }, [], rest)
      else
        diverter_process_debugger_requests
          { ctx with diversion_refcount := ctx.diversion_refcount - 1 } rest
    | _ =>
      let step := dispatch_rw_request ctx.diversion_session r
      let res := diverter_process_debugger_requests
        { ctx with diversion_session := step.1 } rest
      (res.1, step.2 :: res.2.1, res.2.2)

/-- Modelled from the spec: `divert` — fork a diversion session from the
`replay` session (which is not mutated), service requests in it via
`diverter_process_debugger_requests`, then discard the diversion session
wholesale.  Returns the replay session as the main timeline sees it
afterwards, the replies produced inside the diversion, and the unconsumed
request stream (whose head is the first request to be handled by `replay`). -/
def divert (replay : MachineState) (reqs : List DivRequest) :
    MachineState × List DivReply × List DivRequest :=
  let res := diverter_process_debugger_requests
    { replay := replay, diversion_session := replay, diversion_refcount := 1 } reqs
  (res.1.replay, res.2.1, res.2.2)

/-- Modelled from the spec: the requests the reverse-step optimizer sees —
reverse single-steps, register reads, and everything else. -/
inductive GdbRequest where
  | reverse_singlestep
  | read_registers
  | other (kind : Nat)
deriving DecidableEq, Repr

/-- A reply synthesized while servicing reverse-singlestep/read-registers
requests: a singlestep stop notification reported from a machine state, or
a register reply. -/
inductive StepReply where
  | stop (s : MachineState)
  | regs (rs : List Nat)
deriving DecidableEq, Repr

/-- The result of running a request-servicing loop: replies sent, final
timeline position, and the unconsumed request stream. -/
structure StepRunResult where
  replies : List StepReply
  pos : Nat
  remaining : List GdbRequest
deriving DecidableEq, Repr

/-- Look up the cached state recorded for position `p` in the mark
database (the engine's adjacent-mark lookup). -/
def findMark (marks : List (Nat × MachineState)) (p : Nat) : Option MachineState :=
  (marks.find? (fun e => decide (e.1 = p))).map (fun e => e.2)

/-- Modelled from the spec: one lazily serviced request at position `pos`.
A reverse single-step needs a mark immediately preceding the current
position (`pos - 1`); it synthesizes the singlestep stop notification from
that mark's cached state and advances the position to the mark.  A
register read answers from the cached state at the current position.  Any
other request — or a missing mark — is not serviced (`none`). -/
def lazyStep (marks : List (Nat × MachineState)) (pos : Nat) :
    GdbRequest → Option (StepReply × Nat)
  | GdbRequest.reverse_singlestep =>
    if pos = 0 then none
    else (findMark marks (pos - 1)).map (fun s => (StepReply.stop s, pos - 1))
  | GdbRequest.read_registers =>
    (findMark marks pos).map (fun s => (StepReply.regs s.regs, pos))
  | GdbRequest.other _ => none

/-- Modelled from the spec: `try_lazy_reverse_singlesteps` — repeatedly
service reverse-singlestep and read-registers requests from the mark
database, stopping at the first request that cannot be serviced that way
and leaving it (and the rest of the stream) unconsumed. -/
def try_lazy_reverse_singlesteps (marks : List (Nat × MachineState)) :
    List GdbRequest → Nat → StepRunResult
  | [], pos => { replies := [], pos := pos, remaining := [] }
  | r :: rest, pos =>
    match lazyStep marks pos r with
    | some (rep, pos2) =>
      let res := try_lazy_reverse_singlesteps marks rest pos2
      { replies := rep :: res.replies, pos := res.pos, remaining := res.remaining }
    | none => { replies := [], pos := pos, remaining := r :: rest }

/-- Brute-force servicing of one request at position `pos` in the
deterministic replay `stateAt`: a reverse single-step genuinely re-executes
backwards, landing on `stateAt (pos - 1)` and reporting the stop from it; a
register read reports the registers of the state at the current position.
Other requests are not handled by this loop. -/
def bruteStep (stateAt : Nat → MachineState) (pos : Nat) :
    GdbRequest → Option (StepReply × Nat)
  | GdbRequest.reverse_singlestep =>
    if pos = 0 then none
    else some (StepReply.stop (stateAt (pos - 1)), pos - 1)
  | GdbRequest.read_registers => some (StepReply.regs (stateAt pos).regs, pos)
  | GdbRequest.other _ => none

/-- Brute-force reverse execution of a request stream: the reference
behaviour the lazy optimizer must match on the requests it services. -/
def brute_force_run (stateAt : Nat → MachineState) :
    List GdbRequest → Nat → StepRunResult
  | [], pos => { replies := [], pos := pos, remaining := [] }
  | r :: rest, pos =>
    match bruteStep stateAt pos r with
    | some (rep, pos2) =>
      let res := brute_force_run stateAt rest pos2
      { replies := rep :: res.replies, pos := res.pos, remaining := res.remaining }
    | none => { replies := [], pos := pos, remaining := r :: rest }

/-- The mark database is valid for the replay `stateAt` when every cached
entry records exactly the machine state the replay has at that position
(marks are created by snapshotting actual replay states). -/
def MarksValid (stateAt : Nat → MachineState) (marks : List (Nat × MachineState)) : Prop :=
  ∀ e ∈ marks, e.2 = stateAt e.1

instance (stateAt : Nat → MachineState) (marks : List (Nat × MachineState)) :
    Decidable (MarksValid stateAt marks) :=
  List.decidableBAll _ marks

/-- A concrete deterministic replay used to exercise the reverse-step
optimizer theorems on explicit inputs. -/
def wStateAt : Nat → MachineState :=
  fun n => { regs := [n, n + 1], mem := [n], event := n }

/-- A concrete mark database caching the `wStateAt` states at positions
0, 1 and 2. -/
def wMarks : List (Nat × MachineState) :=
  [(0, wStateAt 0), (1, wStateAt 1), (2, wStateAt 2)]

/-- A concrete request stream: two reverse-singlestep/read-registers pairs
followed by a request of another kind. -/
def wReqs : List GdbRequest :=
  [GdbRequest.reverse_singlestep, GdbRequest.read_registers,
   GdbRequest.reverse_singlestep, GdbRequest.read_registers, GdbRequest.other 7]

/-- A concrete checkpoint store holding one checkpoint under id 1. -/
def wStore : List (Int × Checkpoint) :=
  [(1, { mark := some 10, last_continue_tuid := 4 })]

/- ------------------------------------------------------------------ -/
/- Theorems.                                                          -/
/- ------------------------------------------------------------------ -/

/-- Claim C10: a default-constructed `ConnectionFlags` has `dbg_port = -1`
(the server chooses the listen port itself) and a null
`debugger_params_write_pipe` (no connection-parameter handoff, hence no
auto-launch of an external client). -/
theorem connection_flags_defaults :
    ConnectionFlags.mkDefault.dbg_port = -1 ∧
      ConnectionFlags.mkDefault.debugger_params_write_pipe = none :=
  ⟨rfl, rfl⟩

/-- Claim C8 counterexample: the interrupt flag `stop_replaying_to_target`
is not declared as a relaxed `std::atomic<bool>`; GdbServer.h line 202
declares it `volatile bool`, so the claim as stated is false. -/
theorem stop_replaying_decl_not_atomic :
    stop_replaying_to_target_decl ≠ FlagDeclKind.atomicBoolRelaxed := by
  decide

/-- Claim C8 (amended): the interrupt flag `stop_replaying_to_target` is
declared with the language-level `volatile bool` qualifier, not as an
atomic; no broader synchronization is used for it. -/
theorem stop_replaying_decl_volatile :
    stop_replaying_to_target_decl = FlagDeclKind.volatileBool :=
  rfl

/-- Claim C9: the private emergency-debug constructor sets
`debuggee_tguid` to the task's task-group id, both `last_continue_tuid`
and `last_query_tuid` to the task's tuid, clears
`stop_replaying_to_target`, and points `emergency_debug_session` at the
task's session — so `current_session()` resolves to that live session. -/
theorem gdbserver_emergency_ctor_fields (dbg : Nat) (t : DebuggeeTask) :
    (GdbServer.ofEmergencyTask dbg t).debuggee_tguid = t.tguid ∧
      (GdbServer.ofEmergencyTask dbg t).last_continue_tuid = t.tuid ∧
      (GdbServer.ofEmergencyTask dbg t).last_query_tuid = t.tuid ∧
      (GdbServer.ofEmergencyTask dbg t).stop_replaying_to_target = false ∧
      (GdbServer.ofEmergencyTask dbg t).emergency_debug_session = some t.session ∧
      (GdbServer.ofEmergencyTask dbg t).current_session = some t.session :=
  ⟨rfl, rfl, rfl, rfl, rfl, rfl⟩

/-- Claim C6: `current_session()` returns the timeline's current session
when the timeline is running and the emergency debug session otherwise,
and its result is always one of exactly those two sessions. -/
theorem current_session_selection (s : GdbServer) :
    (s.timeline.is_running = true → s.current_session = s.timeline.session) ∧
      (s.timeline.is_running = false → s.current_session = s.emergency_debug_session) ∧
      (s.current_session = s.timeline.session ∨
        s.current_session = s.emergency_debug_session) := by
  unfold GdbServer.current_session
  cases h : s.timeline.is_running <;> simp [h]

/-- Claim C6 witness: for a server built from a replay session the
timeline is running and `current_session` is the timeline's session. -/
theorem current_session_selection_witness :
    (GdbServer.ofReplaySession { sid := 1 } Target.mkDefault).current_session =
      (GdbServer.ofReplaySession { sid := 1 } Target.mkDefault).timeline.session :=
  (current_session_selection (GdbServer.ofReplaySession { sid := 1 } Target.mkDefault)).1 rfl

/-- Claim C7: `interrupt_replay_to_target()` sets
`stop_replaying_to_target` to true and changes no other member of the
server; with the flag set, the REPLAY_TO_TARGET loop — which polls the
flag at every step boundary — stops at the current position without
taking further steps. -/
theorem interrupt_replay_to_target_frame (s : GdbServer) :
    s.interrupt_replay_to_target.stop_replaying_to_target = true ∧
      s.interrupt_replay_to_target.target = s.target ∧
      s.interrupt_replay_to_target.dbg = s.dbg ∧
      s.interrupt_replay_to_target.debuggee_tguid = s.debuggee_tguid ∧
      s.interrupt_replay_to_target.last_continue_tuid = s.last_continue_tuid ∧
      s.interrupt_replay_to_target.last_query_tuid = s.last_query_tuid ∧
      s.interrupt_replay_to_target.timeline = s.timeline ∧
      s.interrupt_replay_to_target.emergency_debug_session = s.emergency_debug_session ∧
      s.interrupt_replay_to_target.debugger_restart_checkpoint =
        s.debugger_restart_checkpoint ∧
      s.interrupt_replay_to_target.checkpoints = s.checkpoints ∧
      ∀ stepFn fuel pos,
        replay_to_target_loop stepFn s.target
          s.interrupt_replay_to_target.stop_replaying_to_target fuel pos = pos := by
  refine ⟨rfl, rfl, rfl, rfl, rfl, rfl, rfl, rfl, rfl, rfl, ?_⟩
  intro stepFn fuel pos
  cases fuel <;> simp [replay_to_target_loop, GdbServer.interrupt_replay_to_target]

/-- Claim C5: with `{pid := 0, require_exec := false, event := E}` the
target predicate holds exactly when the current event count has reached
`E`, whatever the current process; with `{pid := P, require_exec := true,
event := E}` it cannot hold before process `P` has exec'd and the event
count has reached `E`. -/
theorem at_target_characterization (E P : Nat) (p : TimelinePos) :
    (at_target { pid := 0, require_exec := false, event := E } p =
      decide (E ≤ p.event)) ∧
      (at_target { pid := P, require_exec := true, event := E } p = true →
        p.execd.contains P = true ∧ E ≤ p.event) := by
  constructor
  · simp [at_target]
  · intro h
    unfold at_target at h
    simp only [Bool.and_eq_true, decide_eq_true_eq] at h
    refine ⟨?_, h.2⟩
    have hc := h.1.2
    simpa using hc

/-- Claim C5 witness: at event 5 with current pid 7 which has exec'd, the
target `{pid := 7, require_exec := true, event := 3}` is satisfied, and the
theorem recovers the exec and event facts from it. -/
theorem at_target_characterization_witness :
    ({ event := 5, current_pid := 7, execd := [7] } : TimelinePos).execd.contains 7 =
        true ∧
      3 ≤ ({ event := 5, current_pid := 7, execd := [7] } : TimelinePos).event :=
  (at_target_characterization 3 7 { event := 5, current_pid := 7, execd := [7] }).2
    (by decide)

lemma get_checkpoint_eq_none_iff (cps : List (Int × Checkpoint)) (a : Int) :
    get_checkpoint cps a = none ↔ ∀ c, (a, c) ∉ cps := by
  unfold get_checkpoint
  rw [Option.map_eq_none', List.find?_eq_none]
  constructor
  · intro h c hmem
    exact h (a, c) hmem (by simp)
  · intro h e hmem he
    have he1 : e.1 = a := by simpa using he
    exact h e.2 (by rw [← he1]; exact hmem)

lemma get_checkpoint_mem (cps : List (Int × Checkpoint)) (a : Int) (c : Checkpoint)
    (h : (a, c) ∈ cps) :
    ∃ c2, (a, c2) ∈ cps ∧ get_checkpoint cps a = some c2 := by
  have hsome : (cps.find? (fun e => decide (e.1 = a))).isSome := by
    rw [List.find?_isSome]
    exact ⟨(a, c), h, by simp⟩
  obtain ⟨e, he⟩ := Option.isSome_iff_exists.mp hsome
  have he1 : e.1 = a := by simpa using List.find?_some he
  refine ⟨e.2, ?_, ?_⟩
  · rw [← he1]; exact List.mem_of_find?_eq_some he
  · unfold get_checkpoint
    rw [he]
    rfl

lemma get_checkpoint_delete_self (cps : List (Int × Checkpoint)) (a : Int) :
    get_checkpoint (delete_checkpoint cps a) a = none := by
  unfold get_checkpoint delete_checkpoint
  rw [Option.map_eq_none', List.find?_eq_none]
  intro e hmem
  have := List.of_mem_filter hmem
  simpa using this

lemma delete_checkpoint_absent (cps : List (Int × Checkpoint)) (a : Int)
    (h : get_checkpoint cps a = none) : delete_checkpoint cps a = cps := by
  have hall := (get_checkpoint_eq_none_iff cps a).mp h
  unfold delete_checkpoint
  rw [List.filter_eq_self]
  intro e hmem
  simp only [decide_eq_true_eq]
  intro he1
  exact hall e.2 (by rw [← he1]; exact hmem)

lemma find?_key_filter_ne (l : List (Int × Checkpoint)) (a b : Int) (hab : a ≠ b) :
    (l.filter (fun e => decide (e.1 ≠ a))).find? (fun e => decide (e.1 = b)) =
      l.find? (fun e => decide (e.1 = b)) := by
  induction l with
  | nil => rfl
  | cons e rest ih =>
    by_cases hb : e.1 = b
    · have ha : e.1 ≠ a := by rw [hb]; exact fun h2 => hab h2.symm
      rw [List.filter_cons_of_pos (by simpa using ha),
        List.find?_cons_of_pos _ (by simpa using hb),
        List.find?_cons_of_pos _ (by simpa using hb)]
    · by_cases ha : e.1 = a
      · rw [List.filter_cons_of_neg (by simpa using ha),
          List.find?_cons_of_neg _ (by simpa using hb)]
        exact ih
      · rw [List.filter_cons_of_pos (by simpa using ha),
          List.find?_cons_of_neg _ (by simpa using hb),
          List.find?_cons_of_neg _ (by simpa using hb)]
        exact ih

lemma get_checkpoint_delete_other (cps : List (Int × Checkpoint)) (a b : Int)
    (hab : a ≠ b) :
    get_checkpoint (delete_checkpoint cps a) b = get_checkpoint cps b := by
  unfold get_checkpoint delete_checkpoint
  rw [find?_key_filter_ne cps a b hab]

/-- Claim C3: the checkpoint store behaves as a map — `get_checkpoint`
returns an explicit not-found result exactly when no entry with that id is
stored and returns a stored entry when one is present;
`delete_checkpoint` removes the entry for its id when present and is a
no-op when absent; and deleting id `a` leaves lookups of any other id `b`
unchanged. -/
theorem checkpoint_store_map_semantics (cps : List (Int × Checkpoint)) (a b : Int)
    (hab : a ≠ b) :
    (get_checkpoint cps a = none ↔ ∀ c, (a, c) ∉ cps) ∧
      (∀ c, (a, c) ∈ cps → ∃ c2, (a, c2) ∈ cps ∧ get_checkpoint cps a = some c2) ∧
      get_checkpoint (delete_checkpoint cps a) a = none ∧
      (get_checkpoint cps a = none → delete_checkpoint cps a = cps) ∧
      get_checkpoint (delete_checkpoint cps a) b = get_checkpoint cps b :=
  ⟨get_checkpoint_eq_none_iff cps a, get_checkpoint_mem cps a,
    get_checkpoint_delete_self cps a, delete_checkpoint_absent cps a,
    get_checkpoint_delete_other cps a b hab⟩

/-- Claim C3 witness: the map laws instantiated on the concrete store
holding id 1, with lookups and deletion at ids 1 and 2. -/
theorem checkpoint_store_map_semantics_witness :
    (get_checkpoint wStore 1 = none ↔ ∀ c, ((1 : Int), c) ∉ wStore) ∧
      (∀ c, ((1 : Int), c) ∈ wStore →
        ∃ c2, ((1 : Int), c2) ∈ wStore ∧ get_checkpoint wStore 1 = some c2) ∧
      get_checkpoint (delete_checkpoint wStore 1) 1 = none ∧
      (get_checkpoint wStore 1 = none → delete_checkpoint wStore 1 = wStore) ∧
      get_checkpoint (delete_checkpoint wStore 1) 2 = get_checkpoint wStore 2 :=
  checkpoint_store_map_semantics wStore 1 2 (by decide)

lemma applyOp_preserves_anchor (s : GdbServer) (op : ServerOp)
    (h : s.debugger_restart_checkpoint.mark ≠ none) :
    (s.applyOp op).debugger_restart_checkpoint = s.debugger_restart_checkpoint := by
  cases op with
  | attach c => simp [GdbServer.applyOp, h]
  | create id c => rfl
  | remove id => rfl

lemma applyOps_preserves_anchor (ops : List ServerOp) :
    ∀ s : GdbServer, s.debugger_restart_checkpoint.mark ≠ none →
      (s.applyOps ops).debugger_restart_checkpoint = s.debugger_restart_checkpoint := by
  induction ops with
  | nil => intro s _; rfl
  | cons op rest ih =>
    intro s h
    have hop := applyOp_preserves_anchor s op h
    have h2 : (s.applyOp op).debugger_restart_checkpoint.mark ≠ none := by
      rw [hop]; exact h
    calc (s.applyOps (op :: rest)).debugger_restart_checkpoint
        = ((s.applyOp op).applyOps rest).debugger_restart_checkpoint := rfl
      _ = (s.applyOp op).debugger_restart_checkpoint := ih _ h2
      _ = s.debugger_restart_checkpoint := hop

/-- Claim C4: starting from a server whose restart anchor is still unset
(null mark), the first successful attach assigns
`debugger_restart_checkpoint`, and any subsequent sequence of checkpoint
create/delete operations — and even further attach attempts — leaves the
anchor set and unchanged; in particular `delete_checkpoint` of any id
never clears it. -/
theorem restart_anchor_invariant (s : GdbServer) (c : Checkpoint) (m : Nat)
    (h0 : s.debugger_restart_checkpoint.mark = none) (hc : c.mark = some m)
    (ops : List ServerOp) :
    ((s.applyOp (ServerOp.attach c)).applyOps ops).debugger_restart_checkpoint = c := by
  have h1 : (s.applyOp (ServerOp.attach c)).debugger_restart_checkpoint = c := by
    simp [GdbServer.applyOp, h0]
  have h2 : (s.applyOp (ServerOp.attach c)).debugger_restart_checkpoint.mark ≠ none := by
    rw [h1, hc]; exact Option.some_ne_none m
  rw [applyOps_preserves_anchor ops _ h2, h1]

/-- Claim C4 witness: a fresh replay server attaches with an anchor
pinning mark 4; creating a checkpoint under id 0, deleting ids 0 and 5,
and a second attach all leave the anchor equal to that first snapshot. -/
theorem restart_anchor_invariant_witness :
    (((GdbServer.ofReplaySession { sid := 1 } Target.mkDefault).applyOp
          (ServerOp.attach { mark := some 4, last_continue_tuid := 2 })).applyOps
        [ServerOp.create 0 { mark := some 9, last_continue_tuid := 1 },
          ServerOp.remove 0, ServerOp.remove 5,
          ServerOp.attach { mark := some 8, last_continue_tuid := 3 }]).debugger_restart_checkpoint =
      { mark := some 4, last_continue_tuid := 2 } :=
  restart_anchor_invariant (GdbServer.ofReplaySession { sid := 1 } Target.mkDefault)
    { mark := some 4, last_continue_tuid := 2 } 4 rfl rfl
    [ServerOp.create 0 { mark := some 9, last_continue_tuid := 1 },
      ServerOp.remove 0, ServerOp.remove 5,
      ServerOp.attach { mark := some 8, last_continue_tuid := 3 }]

lemma diverter_preserves_replay (reqs : List DivRequest) :
    ∀ ctx : DiversionCtx,
      (diverter_process_debugger_requests ctx reqs).1.replay = ctx.replay := by
  induction reqs with
  | nil => intro ctx; rfl
  | cons r rest ih =>
    intro ctx
    cases r with
    | write_mem a v => simpa [diverter_process_debugger_requests] using ih _
    | write_reg i v => simpa [diverter_process_debugger_requests] using ih _
    | read_mem a => simpa [diverter_process_debugger_requests] using ih _
    | read_reg i => simpa [diverter_process_debugger_requests] using ih _
    | diversion_inc => simpa [diverter_process_debugger_requests] using ih _
    | diversion_dec =>
      by_cases h : ctx.diversion_refcount ≤ 1
      · simp [diverter_process_debugger_requests, h]
      · simpa [diverter_process_debugger_requests, h] using ih _
    | resume => rfl

/-- Claim C1: a diversion started by `divert` does not mutate the replay
session it forks from — for every replay state and every request stream
(including register/memory writes and nested diversions), the main
timeline's state after the diversion is exactly the state passed in, and
the diversion session itself is discarded, so nothing executed inside the
diversion is observable afterwards. -/
theorem divert_isolation (replay : MachineState) (reqs : List DivRequest) :
    (divert replay reqs).1 = replay := by
  unfold divert
  exact diverter_preserves_replay reqs _

lemma findMark_valid (stateAt : Nat → MachineState) (marks : List (Nat × MachineState))
    (hv : MarksValid stateAt marks) (p : Nat) (s : MachineState)
    (h : findMark marks p = some s) : s = stateAt p := by
  unfold findMark at h
  obtain ⟨e, he, hes⟩ := Option.map_eq_some'.mp h
  have hmem := List.mem_of_find?_eq_some he
  have hp : e.1 = p := by simpa using List.find?_some he
  rw [← hes, hv e hmem, hp]

lemma lazyStep_brute (stateAt : Nat → MachineState) (marks : List (Nat × MachineState))
    (hv : MarksValid stateAt marks) (pos : Nat) (r : GdbRequest) (rep : StepReply)
    (pos2 : Nat) (h : lazyStep marks pos r = some (rep, pos2)) :
    bruteStep stateAt pos r = some (rep, pos2) := by
  cases r with
  | reverse_singlestep =>
    unfold lazyStep at h
    by_cases hp : pos = 0
    · rw [if_pos hp] at h
      exact Option.noConfusion h
    · rw [if_neg hp] at h
      obtain ⟨s, hs, heq⟩ := Option.map_eq_some'.mp h
      have hval := findMark_valid stateAt marks hv (pos - 1) s hs
      unfold bruteStep
      rw [if_neg hp, ← heq, hval]
  | read_registers =>
    unfold lazyStep at h
    obtain ⟨s, hs, heq⟩ := Option.map_eq_some'.mp h
    have hval := findMark_valid stateAt marks hv pos s hs
    unfold bruteStep
    rw [← heq, hval]
  | other k => simp [lazyStep] at h

/-- Claim C2: `try_lazy_reverse_singlesteps` consumes exactly a prefix of
the request stream — servicing reverse-singlestep requests from a mark
immediately preceding the current position and read-registers requests
from the cached state at the current position — and hands back the first
request it cannot service that way; and whenever the mark database is
valid for the replay, the stop notifications, register values and final
position it synthesizes are exactly those brute-force reverse execution
produces on that same prefix. -/
theorem try_lazy_reverse_singlesteps_transparent (stateAt : Nat → MachineState)
    (marks : List (Nat × MachineState)) (hv : MarksValid stateAt marks)
    (reqs : List GdbRequest) (pos : Nat) :
    ∃ served,
      reqs = served ++ (try_lazy_reverse_singlesteps marks reqs pos).remaining ∧
      brute_force_run stateAt served pos =
        { replies := (try_lazy_reverse_singlesteps marks reqs pos).replies,
          pos := (try_lazy_reverse_singlesteps marks reqs pos).pos,
          remaining := [] } ∧
      ∀ r rest2, (try_lazy_reverse_singlesteps marks reqs pos).remaining = r :: rest2 →
        lazyStep marks (try_lazy_reverse_singlesteps marks reqs pos).pos r = none := by
  induction reqs generalizing pos with
  | nil =>
    refine ⟨[], rfl, rfl, ?_⟩
    intro r rest2 h
    simp [try_lazy_reverse_singlesteps] at h
  | cons r rest ih =>
    cases hstep : lazyStep marks pos r with
    | none =>
      refine ⟨[], ?_, ?_, ?_⟩
      · simp [try_lazy_reverse_singlesteps, hstep]
      · simp [try_lazy_reverse_singlesteps, hstep]
        rfl
      · intro r2 rest2 h
        simp [try_lazy_reverse_singlesteps, hstep] at h ⊢
        rw [← h.1]
        exact hstep
    | some val =>
      obtain ⟨rep, pos2⟩ := val
      have hb := lazyStep_brute stateAt marks hv pos r rep pos2 hstep
      obtain ⟨served, hsplit, hbrute, hstop⟩ := ih pos2
      refine ⟨r :: served, ?_, ?_, ?_⟩
      · simp only [try_lazy_reverse_singlesteps, hstep, List.cons_append,
          List.cons.injEq, true_and]
        exact hsplit
      · have hcons : brute_force_run stateAt (r :: served) pos =
            { replies := rep :: (brute_force_run stateAt served pos2).replies,
              pos := (brute_force_run stateAt served pos2).pos,
              remaining := (brute_force_run stateAt served pos2).remaining } := by
          simp [brute_force_run, hb]
        rw [hcons, hbrute]
        simp [try_lazy_reverse_singlesteps, hstep]
      · intro r2 rest2 h
        simp only [try_lazy_reverse_singlesteps, hstep] at h ⊢
        exact hstop r2 rest2 h

/-- Claim C2 witness: on the concrete replay `wStateAt` with marks cached
at positions 0-2, starting at position 2 with two
reverse-singlestep/read-registers pairs followed by another request kind,
the lazy loop's replies and final position agree with brute-force reverse
execution on the serviced prefix and the terminating request is returned
unserviced. -/
theorem try_lazy_reverse_singlesteps_transparent_witness :
    ∃ served,
      wReqs = served ++ (try_lazy_reverse_singlesteps wMarks wReqs 2).remaining ∧
      brute_force_run wStateAt served 2 =
        { replies := (try_lazy_reverse_singlesteps wMarks wReqs 2).replies,
          pos := (try_lazy_reverse_singlesteps wMarks wReqs 2).pos,
          remaining := [] } ∧
      ∀ r rest2, (try_lazy_reverse_singlesteps wMarks wReqs 2).remaining = r :: rest2 →
        lazyStep wMarks (try_lazy_reverse_singlesteps wMarks wReqs 2).pos r = none :=
  try_lazy_reverse_singlesteps_transparent wStateAt wMarks (by decide) wReqs 2
